import Mathlib

/-!
Shallow embedding of the cohort/concept-set assembly logic of the
`ohdsi-webapi-mcp` repository (files `tools/concept_sets.py`,
`tools/concepts.py`, `tools/cohorts.py`, `tools/persistence.py`),
together with theorems settling the specification claims about it.

External services (the WebAPI vocabulary search and the cohort store)
are modelled as function parameters; Python dicts used as records are
modelled as structures, and Python dicts used as maps as association
lists with Python dict semantics (insertion order kept, assignment to
an existing key overwrites the value in place).
-/

namespace OhdsiMcp

/-- A concept as returned by the external vocabulary service
(`client.vocabulary.get_concept` / `client.vocabulary.search`).
Mirrors the fields read by the tools. -/
structure ConceptRef where
  concept_id : Int
  concept_name : String
  standard_concept : Option String
  concept_code : String
  domain_id : String
  vocabulary_id : String
  concept_class_id : String
  invalid_reason : Option String
deriving DecidableEq, Repr

/-- One item of a concept-set expression, as assembled by
`create_concept_set` and `create_concept_set_from_search`. -/
structure ConceptSetItem where
  concept : ConceptRef
  isExcluded : Bool
  includeDescendants : Bool
  includeMapped : Bool
deriving DecidableEq, Repr

/-- The concept-set item built for one fetched concept
(`concept_sets.py` lines 53-69 and 181-197). -/
def mkConceptSetItem (include_descendants include_mapped : Bool)
    (c : ConceptRef) : ConceptSetItem :=
  { concept := c
    isExcluded := false
    includeDescendants := include_descendants
    includeMapped := include_mapped }

/-- A concept-set expression: the `expression` dict of the assembled set. -/
structure ConceptSetExpression where
  items : List ConceptSetItem
deriving DecidableEq, Repr

/-- The assembled concept set (`concept_set` dict in `concept_sets.py`). -/
structure ConceptSet where
  id : Int
  name : String
  expression : ConceptSetExpression
deriving DecidableEq, Repr

/-- Result of `create_concept_set`: either the single failure text for the
first concept id that did not resolve, or the assembled concept set. -/
inductive CreateConceptSetResult where
  | failure (failedId : Int) (message : String)
  | success (cs : ConceptSet)
deriving DecidableEq, Repr

/-- The fetch loop of `create_concept_set` (`concept_sets.py` lines 40-49):
each id is fetched in order and the first id that does not resolve aborts
the whole loop with that id. -/
def resolveConcepts (get_concept : Int → Option ConceptRef) :
    List Int → Except Int (List ConceptRef)
  | [] => .ok []
  | cid :: rest =>
    match get_concept cid with
    | none => .error cid
    | some c =>
      match resolveConcepts get_concept rest with
      | .error bad => .error bad
      | .ok cs => .ok (c :: cs)

/-- Model of `create_concept_set` (`concept_sets.py` lines 11-99), with the external
vocabulary lookup passed in as `get_concept`.  A failed lookup returns the
single failure message and no concept set; otherwise all fetched concepts
are wrapped into concept-set items. -/
def create_concept_set (get_concept : Int → Option ConceptRef)
    (name : String) (concept_ids : List Int)
    (include_descendants include_mapped : Bool) : CreateConceptSetResult :=
  match resolveConcepts get_concept concept_ids with
  | .error cid => .failure cid ("Concept not found: " ++ toString cid)
  | .ok concepts =>
    .success
      { id := 0
        name := name
        expression :=
          { items := concepts.map (mkConceptSetItem include_descendants include_mapped) } }

/-! ### `create_concept_set_from_search` (`concept_sets.py` lines 102-229)

The per-query searches are external; we model them by the list of result
lists, one per query (each obtained with `page_size = max_concepts_per_query`).
The dedup step `unique_concepts[concept.concept_id] = concept` is a Python
dict: insertion keeps order of first appearance of a key, assignment to an
existing key overwrites the stored value in place. -/

/-- One assignment `d[k] = v` on a Python dict held as an ordered
association list. -/
def pyDictAssign (d : List (Int × ConceptRef)) (k : Int) (v : ConceptRef) :
    List (Int × ConceptRef) :=
  if d.any (fun p => p.1 = k) then
    d.map (fun p => if p.1 = k then (k, v) else p)
  else
    d ++ [(k, v)]

/-- The dedup loop `for concept in all_concepts: unique_concepts[concept.concept_id] = concept`. -/
def uniqueConcepts (all_concepts : List ConceptRef) : List (Int × ConceptRef) :=
  all_concepts.foldl (fun d c => pyDictAssign d c.concept_id c) []

/-- Model of `create_concept_set_from_search`, restricted to the concept-set
assembly (lines 142-197): concatenate the per-query results (each
truncated to `max_concepts_per_query`), deduplicate by concept id with
Python-dict semantics, and wrap the remaining concepts into items. -/
def create_concept_set_from_search (name : String)
    (search_results : List (List ConceptRef))
    (include_descendants include_mapped : Bool)
    (max_concepts_per_query : Nat) : ConceptSet :=
  let all_concepts := (search_results.map (fun l => l.take max_concepts_per_query)).flatten
  let uniq := uniqueConcepts all_concepts
  { id := 0
    name := name
    expression :=
      { items := (uniq.map Prod.snd).map (mkConceptSetItem include_descendants include_mapped) } }

/-- Specification-side helper: first-seen deduplication of a list of ids,
with `seen` the ids already emitted. -/
def firstSeenDedup (seen : List Int) : List Int → List Int
  | [] => []
  | x :: xs =>
    if x ∈ seen then firstSeenDedup seen xs
    else x :: firstSeenDedup (x :: seen) xs

/-! ### Cohort-expression model (`tools/cohorts.py`)

The constructed `CohortExpression` object (from the external
`ohdsi_cohort_schemas` library) is modelled by the fields the tools
actually read; optional sections use `Option`, and Python falsy checks
on strings/lists test for emptiness. -/

/-- The `ObservationWindow` of primary criteria. -/
structure ObservationWindow where
  PriorDays : Int
  PostDays : Int
deriving DecidableEq, Repr

/-- A day offset with sign coefficient, one boundary of a time window
(`add_inclusion_rule`). -/
structure WindowBoundary where
  Days : Int
  Coeff : Int
deriving DecidableEq, Repr

/-- A start/end time window of an inclusion-rule expression. -/
structure TimeWindow where
  Start : WindowBoundary
  End : WindowBoundary
  UseIndexEnd : Bool
  UseEventEnd : Bool
deriving DecidableEq, Repr

/-- A criteria item `{criteria_type: {"CodesetId": ..., f"{criteria_type}TypeExclude": False, ...}}`:
the single key of the outer dict is kept as `criteriaType`. -/
structure CriteriaItem where
  criteriaType : String
  CodesetId : Int
  TypeExclude : Bool
  OccurrenceCount : Option Int
deriving DecidableEq, Repr

/-- An inclusion-rule criteria expression (`add_inclusion_rule` lines 154-162). -/
structure RuleExpression where
  Type' : String
  CriteriaList : List CriteriaItem
  DemographicCriteriaList : List Unit
  Groups : List Unit
  StartWindow : Option TimeWindow
  EndWindow : Option TimeWindow
deriving DecidableEq, Repr

/-- An inclusion rule as seen by the validator: a name (empty string for
the Python falsy unnamed case) and an optional expression. -/
structure InclusionRule where
  name : String
  expression : Option RuleExpression
deriving DecidableEq, Repr

/-- Primary criteria as seen by the validator. -/
structure PrimaryCriteria where
  CriteriaList : List CriteriaItem
  ObservationWindow : ObservationWindow
  PrimaryCriteriaLimitType : String
deriving DecidableEq, Repr

/-- A concept set as seen by the validator: `expression` may be absent
(falsy) and its item list may be empty. -/
structure ValConceptSet where
  name : String
  expression : Option ConceptSetExpression
deriving DecidableEq, Repr

/-- The cohort expression constructed by the schema library, restricted to
the fields the validator reads. -/
structure CohortExpression where
  PrimaryCriteria : Option PrimaryCriteria
  ConceptSets : List ValConceptSet
  InclusionRules : List InclusionRule
deriving DecidableEq, Repr

/-- Error emitted for one concept set (`cohorts.py` lines 212-214):
missing expression or empty item list. -/
def conceptSetErrors (cs : ValConceptSet) : List String :=
  match cs.expression with
  | none => ["Concept set " ++ cs.name ++ " has no concepts defined"]
  | some e =>
    if e.items = [] then ["Concept set " ++ cs.name ++ " has no concepts defined"]
    else []

/-- Warning emitted for one concept set (`cohorts.py` lines 216-218):
more than 100 concepts. -/
def conceptSetWarnings (cs : ValConceptSet) : List String :=
  match cs.expression with
  | none => []
  | some e =>
    if e.items.length > 100 then
      ["Concept set " ++ cs.name ++ " has " ++ toString e.items.length ++ " concepts"]
    else []

/-- Warning for one indexed inclusion rule (`cohorts.py` lines 233-235):
no name. -/
def ruleWarnings (ir : Nat × InclusionRule) : List String :=
  if ir.2.name = "" then ["Inclusion rule " ++ toString (ir.1 + 1) ++ " has no name"]
  else []

/-- Error for one inclusion rule (`cohorts.py` lines 237-238):
no expression. -/
def ruleErrors (ir : Nat × InclusionRule) : List String :=
  match ir.2.expression with
  | none => ["Inclusion rule " ++ ir.2.name ++ " has no expression defined"]
  | some _ => []

/-- The error list accumulated by `validate_cohort_definition`
(`cohorts.py` lines 200-238), in append order: missing primary criteria,
per-concept-set emptiness, empty primary `CriteriaList`, per-rule missing
expression. -/
def validationErrors (cohort : CohortExpression) : List String :=
  (match cohort.PrimaryCriteria with
   | none => ["Missing PrimaryCriteria - cohort must have index events defined"]
   | some _ => [])
  ++ cohort.ConceptSets.flatMap conceptSetErrors
  ++ (match cohort.PrimaryCriteria with
      | none => []
      | some pc =>
        if pc.CriteriaList = [] then ["PrimaryCriteria has no CriteriaList defined"]
        else [])
  ++ (cohort.InclusionRules.enum.flatMap ruleErrors)

/-- The warning list accumulated by `validate_cohort_definition`, in
append order: no concept sets, per-set size smell, long prior observation
window, per-rule missing name. -/
def validationWarnings (cohort : CohortExpression) : List String :=
  (if cohort.ConceptSets = [] then
    ["No ConceptSets defined - cohort may not work as expected"]
   else [])
  ++ cohort.ConceptSets.flatMap conceptSetWarnings
  ++ (match cohort.PrimaryCriteria with
      | none => []
      | some pc =>
        if pc.ObservationWindow.PriorDays > 365 then
          ["Long prior observation window may reduce cohort size"]
        else [])
  ++ (cohort.InclusionRules.enum.flatMap ruleWarnings)

/-! ### `define_primary_criteria` (`cohorts.py` lines 12-81) -/

/-- The fixed domain-to-criteria-type synonym table (`cohorts.py` lines 37-48). -/
def domain_mapping : List (String × String) :=
  [("ConditionOccurrence", "ConditionOccurrence"),
   ("Condition", "ConditionOccurrence"),
   ("DrugExposure", "DrugExposure"),
   ("Drug", "DrugExposure"),
   ("ProcedureOccurrence", "ProcedureOccurrence"),
   ("Procedure", "ProcedureOccurrence"),
   ("Measurement", "Measurement"),
   ("Observation", "Observation"),
   ("DeviceExposure", "DeviceExposure"),
   ("Device", "DeviceExposure")]

/-- Python `dict.get`: first binding of the key, if any. -/
def dictGet (d : List (String × String)) (k : String) : Option String :=
  match d with
  | [] => none
  | (k', v) :: rest => if k' = k then some v else dictGet rest k

/-- Result of `define_primary_criteria`: either the unsupported-domain
text result (no exception is raised) or the built primary criteria. -/
inductive PrimaryCriteriaResult where
  | unsupported (message : String)
  | ok (pc : PrimaryCriteria)
deriving DecidableEq, Repr

/-- Model of `define_primary_criteria`: maps the domain through the synonym table;
an unrecognised label yields the unsupported-domain result; otherwise a
single criteria item keyed by the criteria type carries the concept-set
id, and the limit carries the occurrence type. -/
def define_primary_criteria (concept_set_id : Int) (domain : String)
    (occurrence_type : String)
    (observation_window_prior observation_window_post : Int) :
    PrimaryCriteriaResult :=
  match dictGet domain_mapping domain with
  | none => .unsupported ("Unsupported domain: " ++ domain)
  | some criteria_type =>
    .ok
      { CriteriaList :=
          [{ criteriaType := criteria_type
             CodesetId := concept_set_id
             TypeExclude := false
             OccurrenceCount := none }]
        ObservationWindow :=
          { PriorDays := observation_window_prior
            PostDays := observation_window_post }
        PrimaryCriteriaLimitType := occurrence_type }

/-! ### `add_inclusion_rule` (`cohorts.py` lines 84-180) -/

/-- The window built from a pair of optional day offsets (`cohorts.py`
lines 129-152): absent entirely when both offsets are `None`; each
boundary uses `Days = offset or 0` and `Coeff = -1 if (offset or 0) < 0 else 1`. -/
def mkTimeWindow (wstart wend : Option Int) : Option TimeWindow :=
  if wstart = none ∧ wend = none then none
  else
    some
      { Start :=
          { Days := wstart.getD 0
            Coeff := if wstart.getD 0 < 0 then -1 else 1 }
        End :=
          { Days := wend.getD 0
            Coeff := if wend.getD 0 < 0 then -1 else 1 }
        UseIndexEnd := false
        UseEventEnd := false }

/-- Model of `add_inclusion_rule`: a single-criteria ALL group; the occurrence
count is attached only when strictly greater than one; start/end windows
are attached only when built. -/
def add_inclusion_rule (name : String) (criteria_type : String)
    (concept_set_id : Int)
    (start_window_start start_window_end : Option Int)
    (end_window_start end_window_end : Option Int)
    (occurrence_count : Int) : InclusionRule :=
  let criteria_item : CriteriaItem :=
    { criteriaType := criteria_type
      CodesetId := concept_set_id
      TypeExclude := false
      OccurrenceCount := if occurrence_count > 1 then some occurrence_count else none }
  { name := name
    expression :=
      some
        { Type' := "ALL"
          CriteriaList := [criteria_item]
          DemographicCriteriaList := []
          Groups := []
          StartWindow := mkTimeWindow start_window_start start_window_end
          EndWindow := mkTimeWindow end_window_start end_window_end } }

/-! ### `load_existing_cohort` name resolution (`persistence.py` lines 104-127)

Cohort names and the query string are modelled as lists of characters so
that Python's `str.lower()` and substring test `a in b` become
`List.map Char.toLower` and `List.isInfixOf`. -/

/-- A cohort as listed by `client.cohort_definitions.list()`. -/
structure CohortMeta where
  id : Int
  name : List Char
deriving DecidableEq, Repr

/-- Python substring containment `needle in haystack` on character lists. -/
def pySubstr (needle : List Char) : List Char → Bool
  | [] => needle.isEmpty
  | c :: rest => needle.isPrefixOf (c :: rest) || pySubstr needle rest

/-- Python `c.name.lower() == cohort_name.lower()`. -/
def exactNameMatch (cohort_name : List Char) (c : CohortMeta) : Bool :=
  c.name.map Char.toLower = cohort_name.map Char.toLower

/-- Python `cohort_name.lower() in c.name.lower()`. -/
def partialNameMatch (cohort_name : List Char) (c : CohortMeta) : Bool :=
  pySubstr (cohort_name.map Char.toLower) (c.name.map Char.toLower)

/-- Outcome of resolving a cohort name against the listed cohorts. -/
inductive LoadByNameResult where
  | notFound
  | ambiguous (candidates : List CohortMeta)
  | found (c : CohortMeta)
deriving DecidableEq, Repr

/-- The list-then-filter name resolution of `load_existing_cohort`:
exact case-insensitive matches first, else substring matches; an empty
match list is not-found, more than one match is the ambiguous listing of
the first ten, exactly one is the loaded cohort. -/
def loadCohortByName (cohorts : List CohortMeta) (cohort_name : List Char) :
    LoadByNameResult :=
  let matching := cohorts.filter (exactNameMatch cohort_name)
  let matching :=
    if matching = [] then cohorts.filter (partialNameMatch cohort_name)
    else matching
  match matching with
  | [] => .notFound
  | [c] => .found c
  | _ => .ambiguous (matching.take 10)

/-! ### `compare_cohorts` (`persistence.py` lines 182-302)

Only the fields the comparison reads are modelled: the two name
collections (Python sets of strings, modelled as `Finset String`), the
section lengths and primary-criteria presence, and the 4-point structural
similarity score. -/

/-- A concept set or inclusion rule as read by `compare_cohorts`: only an
optional `name` key matters (`cs.get("name", ...)` / `rule.get("name", ...)`). -/
structure NamedEntry where
  name : Option String
deriving DecidableEq, Repr

/-- A cohort definition as read by `compare_cohorts`. -/
structure CmpCohort where
  ConceptSets : List NamedEntry
  InclusionRules : List NamedEntry
  PrimaryCriteria : Option PrimaryCriteria
deriving DecidableEq, Repr

/-- Python set `\x7bcs.get("name", f"Unnamed_\x7bi\x7d") for i, cs in enumerate(cs_list)\x7d`. -/
def conceptSetNames (l : List NamedEntry) : Finset String :=
  (l.enum.map (fun p => p.2.name.getD ("Unnamed_" ++ toString p.1))).toFinset

/-- Python set `\x7brule.get("name", f"Rule_\x7bi\x7d") for i, rule in enumerate(rules)\x7d`. -/
def ruleNames (l : List NamedEntry) : Finset String :=
  (l.enum.map (fun p => p.2.name.getD ("Rule_" ++ toString p.1))).toFinset

/-- The structural outcome of `compare_cohorts`: the symmetric
name-difference sets and the similarity percentage. -/
structure CompareOutcome where
  only_cs_a : Finset String
  only_cs_b : Finset String
  only_rules_a : Finset String
  only_rules_b : Finset String
  structure_score : Nat
  similarity_pct : Nat
deriving DecidableEq

/-- Model of `compare_cohorts`, restricted to its structural computation
(`persistence.py` lines 207-290): name set differences and a score out of
four checks (concept-set count parity, rule count parity, primary-criteria
presence parity, non-empty common concept-set names), rendered as
`score / 4 * 100` percent. -/
def compare_cohorts (a b : CmpCohort) : CompareOutcome :=
  let cs_names_a := conceptSetNames a.ConceptSets
  let cs_names_b := conceptSetNames b.ConceptSets
  let common := cs_names_a ∩ cs_names_b
  let ir_names_a := ruleNames a.InclusionRules
  let ir_names_b := ruleNames b.InclusionRules
  let score :=
    (if a.ConceptSets.length = b.ConceptSets.length then 1 else 0)
    + (if a.InclusionRules.length = b.InclusionRules.length then 1 else 0)
    + (if a.PrimaryCriteria.isSome = b.PrimaryCriteria.isSome then 1 else 0)
    + (if common.card > 0 then 1 else 0)
  { only_cs_a := cs_names_a \ cs_names_b
    only_cs_b := cs_names_b \ cs_names_a
    only_rules_a := ir_names_a \ ir_names_b
    only_rules_b := ir_names_b \ ir_names_a
    structure_score := score
    similarity_pct := score * 100 / 4 }

/-! ### `clone_cohort` (`persistence.py` lines 305-398)

The fetched source definition is a JSON object; its top level is
modelled as an ordered association list over an arbitrary value type.
The deep copy `json.loads(json.dumps(...))` is the identity on the pure
model. -/

/-- Python `if key in d: d[key] = value` — overwrite in place when the key is
present, otherwise leave the dict unchanged. -/
def overwriteExisting {V : Type} (d : List (String × V)) (k : String) (v : V) :
    List (String × V) :=
  if d.any (fun p => p.1 = k) then
    d.map (fun p => if p.1 = k then (k, v) else p)
  else d

/-- The modification loop of `clone_cohort` (`persistence.py` lines 347-350). -/
def applyModifications {V : Type} (d : List (String × V))
    (modifications : List (String × V)) : List (String × V) :=
  modifications.foldl (fun acc kv => overwriteExisting acc kv.1 kv.2) d

/-- The envelope saved by `clone_cohort` (`persistence.py` lines 352-358). -/
structure CohortData (V : Type) where
  name : String
  description : String
  expressionType : String
  expression : List (String × V)
deriving DecidableEq, Repr

/-- Model of `clone_cohort`, restricted to the definition it saves: deep-copy the
source definition, apply the (possibly absent, Python-falsy) modification
map, and wrap it with the new name and description. -/
def clone_cohort {V : Type} (source_definition : List (String × V))
    (new_name : String) (modifications : Option (List (String × V)))
    (new_description : String) : CohortData V :=
  let cloned :=
    match modifications with
    | none => source_definition
    | some m => if m.isEmpty then source_definition else applyModifications source_definition m
  { name := new_name
    description := new_description
    expressionType := "SIMPLE_EXPRESSION"
    expression := cloned }

/-- First value stored under a key of an association list (Python dict
lookup: at most one binding per key in an actual dict). -/
def keyLookup {K V : Type} [DecidableEq K] (k : K) : List (K × V) → Option V
  | [] => none
  | (k', v) :: rest => if k' = k then some v else keyLookup k rest

/-! ### Specification-side helpers used only in theorem statements -/

/-- Whether a caller-supplied optional day offset is a negative number. -/
def offsetNegative : Option Int → Bool
  | none => false
  | some v => decide (v < 0)

/-- Left-biased choice on options. -/
def optOr {α : Type} (a b : Option α) : Option α :=
  match a with
  | some x => some x
  | none => b

/-- A sample concept for concrete evaluations. -/
def cAlpha : ConceptRef :=
  { concept_id := 1
    concept_name := "Alpha"
    standard_concept := some ("S")
    concept_code := "a1"
    domain_id := "Condition"
    vocabulary_id := "SNOMED"
    concept_class_id := "Clinical Finding"
    invalid_reason := none }

/-- A second sample concept sharing `cAlpha`'s id but differing elsewhere. -/
def cBeta : ConceptRef :=
  { cAlpha with concept_name := "Beta", concept_code := "b2" }

/-- A sample concept with a distinct id. -/
def cGamma : ConceptRef :=
  { cAlpha with concept_id := 2, concept_name := "Gamma" }

/-! ## Helper lemmas -/

theorem mkTimeWindow_eq_none_iff (a b : Option Int) :
    mkTimeWindow a b = none ↔ a = none ∧ b = none := by
  unfold mkTimeWindow
  split <;> simp_all

theorem coeff_eq_offsetNegative (a : Option Int) :
    (if a.getD 0 < 0 then (-1 : Int) else 1) =
      (if offsetNegative a then (-1 : Int) else 1) := by
  cases a <;> simp [offsetNegative]

theorem mkTimeWindow_coeffs (a b : Option Int) :
    (mkTimeWindow a b).map (fun w => (w.Start.Coeff, w.End.Coeff)) =
      if a = none ∧ b = none then none
      else some ((if offsetNegative a then (-1 : Int) else 1),
                 (if offsetNegative b then (-1 : Int) else 1)) := by
  unfold mkTimeWindow
  split
  · rfl
  · rw [Option.map_some', coeff_eq_offsetNegative a, coeff_eq_offsetNegative b]

/-! ## Claim theorems -/

/-- C6: for every call to `add_inclusion_rule`, the start (resp. end)
window is omitted exactly when both of its offsets are unset; when
present, each boundary's coefficient is -1 exactly when the
caller-supplied offset is negative and 1 otherwise; and the occurrence
count is attached to the criteria item exactly when it is greater
than one. -/
theorem c6_add_inclusion_rule_windows_and_count (n ct : String) (cid : Int)
    (sws swe ews ewe : Option Int) (occ : Int) :
    ∃ e, (add_inclusion_rule n ct cid sws swe ews ewe occ).expression = some e ∧
      (e.StartWindow = none ↔ sws = none ∧ swe = none) ∧
      (e.StartWindow.map (fun w => (w.Start.Coeff, w.End.Coeff)) =
        if sws = none ∧ swe = none then none
        else some ((if offsetNegative sws then (-1 : Int) else 1),
                   (if offsetNegative swe then (-1 : Int) else 1))) ∧
      (e.EndWindow = none ↔ ews = none ∧ ewe = none) ∧
      (e.EndWindow.map (fun w => (w.Start.Coeff, w.End.Coeff)) =
        if ews = none ∧ ewe = none then none
        else some ((if offsetNegative ews then (-1 : Int) else 1),
                   (if offsetNegative ewe then (-1 : Int) else 1))) ∧
      (e.CriteriaList.map CriteriaItem.OccurrenceCount =
        [if occ > 1 then some occ else none]) := by
  refine ⟨_, rfl, ?_, ?_, ?_, ?_, rfl⟩
  · exact mkTimeWindow_eq_none_iff sws swe
  · exact mkTimeWindow_coeffs sws swe
  · exact mkTimeWindow_eq_none_iff ews ewe
  · exact mkTimeWindow_coeffs ews ewe

/-- C7: for every domain label, a label found in the fixed synonym table
yields a criteria object keyed by the mapped criteria type carrying the
supplied concept-set id and occurrence type; an unrecognized label yields
the unsupported-domain text result (`define_primary_criteria` is total:
no exception escapes). -/
theorem c7_define_primary_criteria_mapping (cid : Int) (domain occ : String)
    (p q : Int) :
    (∀ ct, dictGet domain_mapping domain = some ct →
      ∃ pc, define_primary_criteria cid domain occ p q = .ok pc ∧
        pc.CriteriaList.map CriteriaItem.criteriaType = [ct] ∧
        pc.CriteriaList.map CriteriaItem.CodesetId = [cid] ∧
        pc.PrimaryCriteriaLimitType = occ) ∧
    (dictGet domain_mapping domain = none →
      define_primary_criteria cid domain occ p q =
        .unsupported ("Unsupported domain: " ++ domain)) := by
  constructor
  · intro ct h
    refine ⟨{ CriteriaList := [{ criteriaType := ct, CodesetId := cid,
                                 TypeExclude := false, OccurrenceCount := none }]
              ObservationWindow := { PriorDays := p, PostDays := q }
              PrimaryCriteriaLimitType := occ }, ?_, rfl, rfl, rfl⟩
    simp [define_primary_criteria, h]
  · intro h
    simp [define_primary_criteria, h]

/-- C7 witness: the spec's example — domain `Condition` (and its synonym
`ConditionOccurrence`) maps to `ConditionOccurrence` with `CodesetId` 7
and limit type `First`, and an unrecognized label gives the
unsupported-domain result. -/
theorem c7_define_primary_criteria_mapping_witness :
    dictGet domain_mapping ("Condition") = some ("ConditionOccurrence") ∧
    dictGet domain_mapping ("ConditionOccurrence") = some ("ConditionOccurrence") ∧
    (∃ pc, define_primary_criteria 7 ("Condition") ("First") 0 0 = .ok pc ∧
      pc.CriteriaList.map CriteriaItem.criteriaType = ["ConditionOccurrence"] ∧
      pc.CriteriaList.map CriteriaItem.CodesetId = [7] ∧
      pc.PrimaryCriteriaLimitType = "First") ∧
    define_primary_criteria 7 ("Banana") ("First") 0 0 =
      .unsupported ("Unsupported domain: " ++ "Banana") :=
  ⟨by decide, by decide,
   (c7_define_primary_criteria_mapping 7 ("Condition") ("First") 0 0).1
     ("ConditionOccurrence") (by decide),
   (c7_define_primary_criteria_mapping 7 ("Banana") ("First") 0 0).2 (by decide)⟩

/-- C9: cloning with an absent or empty modifications map saves an
expression identical to the source definition, with the new name and
description in the envelope. -/
theorem c9_clone_cohort_empty_modifications {V : Type}
    (src : List (String × V)) (nn nd : String) :
    (clone_cohort src nn none nd).expression = src ∧
    (clone_cohort src nn (some []) nd).expression = src ∧
    (clone_cohort src nn none nd).name = nn ∧
    (clone_cohort src nn none nd).description = nd ∧
    (clone_cohort src nn none nd).expressionType = "SIMPLE_EXPRESSION" ∧
    (clone_cohort src nn (some []) nd).name = nn ∧
    (clone_cohort src nn (some []) nd).description = nd :=
  ⟨rfl, rfl, rfl, rfl, rfl, rfl, rfl⟩

/-- C3: a cohort expression lacking primary criteria always validates
with at least one error, never zero errors. -/
theorem c3_validate_missing_primary_criteria_errors (c : CohortExpression)
    (h : c.PrimaryCriteria = none) :
    validationErrors c ≠ [] ∧ 1 ≤ (validationErrors c).length := by
  have hcons : validationErrors c =
      "Missing PrimaryCriteria - cohort must have index events defined" ::
        (c.ConceptSets.flatMap conceptSetErrors ++ [] ++
          c.InclusionRules.enum.flatMap ruleErrors) := by
    simp [validationErrors, h]
  rw [hcons]
  exact ⟨List.cons_ne_nil _ _, by simp⟩

/-- C3 witness: the empty cohort expression without primary criteria. -/
theorem c3_validate_missing_primary_criteria_errors_witness :
    validationErrors { PrimaryCriteria := none, ConceptSets := [], InclusionRules := [] } ≠ [] ∧
    1 ≤ (validationErrors { PrimaryCriteria := none, ConceptSets := [], InclusionRules := [] }).length :=
  c3_validate_missing_primary_criteria_errors
    { PrimaryCriteria := none, ConceptSets := [], InclusionRules := [] } rfl

/-- C5: a cohort expression with primary criteria whose criteria list is
non-empty, at least one concept set, every concept set holding between 1
and 100 concepts, a prior-observation window of at most 365 days, and
every inclusion rule named and carrying an expression, validates with
zero errors and zero warnings. -/
theorem c5_validate_clean_cohort (c : CohortExpression) (pc : PrimaryCriteria)
    (hpc : c.PrimaryCriteria = some pc)
    (hcl : pc.CriteriaList ≠ [])
    (hcs : c.ConceptSets ≠ [])
    (hok : ∀ cs ∈ c.ConceptSets,
      ∃ e, cs.expression = some e ∧ e.items ≠ [] ∧ e.items.length ≤ 100)
    (hw : pc.ObservationWindow.PriorDays ≤ 365)
    (hr : ∀ r ∈ c.InclusionRules, r.name ≠ "" ∧ r.expression ≠ none) :
    validationErrors c = [] ∧ validationWarnings c = [] := by
  have hcse : c.ConceptSets.flatMap conceptSetErrors = [] := by
    rw [List.flatMap_eq_nil_iff]
    intro cs hmem
    obtain ⟨e, he, hne, _⟩ := hok cs hmem
    simp [conceptSetErrors, he, hne]
  have hcsw : c.ConceptSets.flatMap conceptSetWarnings = [] := by
    rw [List.flatMap_eq_nil_iff]
    intro cs hmem
    obtain ⟨e, he, _, hle⟩ := hok cs hmem
    simp [conceptSetWarnings, he]
    omega
  have hre : c.InclusionRules.enum.flatMap ruleErrors = [] := by
    rw [List.flatMap_eq_nil_iff]
    intro p hmem
    have hp : p.2 ∈ c.InclusionRules := by
      have hg := List.mem_enum_iff_getElem?.mp hmem
      exact List.mem_iff_getElem?.mpr ⟨p.1, hg⟩
    obtain ⟨-, hexpr⟩ := hr p.2 hp
    obtain ⟨re, hre⟩ := Option.ne_none_iff_exists'.mp hexpr
    simp [ruleErrors, hre]
  have hrw : c.InclusionRules.enum.flatMap ruleWarnings = [] := by
    rw [List.flatMap_eq_nil_iff]
    intro p hmem
    have hp : p.2 ∈ c.InclusionRules := by
      have hg := List.mem_enum_iff_getElem?.mp hmem
      exact List.mem_iff_getElem?.mpr ⟨p.1, hg⟩
    obtain ⟨hname, -⟩ := hr p.2 hp
    simp [ruleWarnings, hname]
  constructor
  · simp [validationErrors, hpc, hcse, hre, hcl]
  · simp [validationWarnings, hpc, hcs, hcsw, hrw]
    omega

/-- C5 witness: a concrete clean cohort expression validates with zero
errors and warnings. -/
theorem c5_validate_clean_cohort_witness :
    validationErrors
        { PrimaryCriteria :=
            some { CriteriaList := [{ criteriaType := "ConditionOccurrence",
                                      CodesetId := 0, TypeExclude := false,
                                      OccurrenceCount := none }]
                   ObservationWindow := { PriorDays := 0, PostDays := 0 }
                   PrimaryCriteriaLimitType := "First" }
          ConceptSets :=
            [{ name := "cs0"
               expression := some { items := [mkConceptSetItem true false cAlpha] } }]
          InclusionRules :=
            [{ name := "rule one"
               expression := some { Type' := "ALL", CriteriaList := [],
                                    DemographicCriteriaList := [], Groups := [],
                                    StartWindow := none, EndWindow := none } }] } = [] ∧
    validationWarnings
        { PrimaryCriteria :=
            some { CriteriaList := [{ criteriaType := "ConditionOccurrence",
                                      CodesetId := 0, TypeExclude := false,
                                      OccurrenceCount := none }]
                   ObservationWindow := { PriorDays := 0, PostDays := 0 }
                   PrimaryCriteriaLimitType := "First" }
          ConceptSets :=
            [{ name := "cs0"
               expression := some { items := [mkConceptSetItem true false cAlpha] } }]
          InclusionRules :=
            [{ name := "rule one"
               expression := some { Type' := "ALL", CriteriaList := [],
                                    DemographicCriteriaList := [], Groups := [],
                                    StartWindow := none, EndWindow := none } }] } = [] := by
  refine c5_validate_clean_cohort _ _ rfl ?_ ?_ ?_ ?_ ?_
  · simp
  · simp
  · intro cs hmem
    simp at hmem
    subst hmem
    exact ⟨_, rfl, by simp, by simp⟩
  · simp
  · intro r hmem
    simp at hmem
    subst hmem
    exact ⟨by simp, by simp⟩

/-- All ids resolving in order yields the concept list in order. -/
theorem resolveConcepts_ok (get : Int → Option ConceptRef) (ids : List Int)
    (h : ∀ cid ∈ ids, ∃ c, get cid = some c ∧ c.concept_id = cid) :
    ∃ cs, resolveConcepts get ids = .ok cs ∧ cs.map ConceptRef.concept_id = ids := by
  induction ids with
  | nil => exact ⟨[], rfl, rfl⟩
  | cons x rest ih =>
    obtain ⟨c, hc, hid⟩ := h x (List.mem_cons_self x rest)
    obtain ⟨cs, hcs, hmap⟩ := ih (fun cid hm => h cid (List.mem_cons_of_mem _ hm))
    refine ⟨c :: cs, ?_, ?_⟩
    · simp [resolveConcepts, hc, hcs]
    · simp [hmap, hid]

/-- A non-resolving id makes the whole loop abort with a failing id. -/
theorem resolveConcepts_error (get : Int → Option ConceptRef) (ids : List Int)
    (h : ∃ cid ∈ ids, get cid = none) :
    ∃ cid, cid ∈ ids ∧ get cid = none ∧ resolveConcepts get ids = .error cid := by
  induction ids with
  | nil => simp at h
  | cons x rest ih =>
    cases hx : get x with
    | none =>
      exact ⟨x, List.mem_cons_self x rest, hx, by simp [resolveConcepts, hx]⟩
    | some c =>
      obtain ⟨cid, hmem, hnone⟩ := h
      have hmem' : cid ∈ rest := by
        rcases List.mem_cons.mp hmem with h1 | h1
        · subst h1
          rw [hx] at hnone
          cases hnone
        · exact h1
      obtain ⟨cid', hm, hn, herr⟩ := ih ⟨cid, hmem', hnone⟩
      exact ⟨cid', List.mem_cons_of_mem _ hm, hn, by simp [resolveConcepts, hx, herr]⟩

/-- C4: when every id resolves, `create_concept_set` succeeds with exactly
the supplied ids in order (none dropped); when some id fails to resolve,
the whole call is the single failure message for a failing id, with no
concept set assembled. -/
theorem c4_create_concept_set_fail_fast (get : Int → Option ConceptRef)
    (name : String) (ids : List Int) (incd incm : Bool) :
    ((∀ cid ∈ ids, ∃ c, get cid = some c ∧ c.concept_id = cid) →
      ∃ cs, create_concept_set get name ids incd incm = .success cs ∧
        cs.expression.items.map (fun it => it.concept.concept_id) = ids) ∧
    ((∃ cid ∈ ids, get cid = none) →
      ∃ cid, cid ∈ ids ∧ get cid = none ∧
        create_concept_set get name ids incd incm =
          .failure cid ("Concept not found: " ++ toString cid)) := by
  constructor
  · intro h
    obtain ⟨cs, hcs, hmap⟩ := resolveConcepts_ok get ids h
    refine ⟨{ id := 0, name := name,
              expression := { items := cs.map (mkConceptSetItem incd incm) } }, ?_, ?_⟩
    · simp [create_concept_set, hcs]
    · simp only [List.map_map]
      simpa [Function.comp, mkConceptSetItem] using hmap
  · intro h
    obtain ⟨cid, hm, hn, herr⟩ := resolveConcepts_error get ids h
    exact ⟨cid, hm, hn, by simp [create_concept_set, herr]⟩

/-- C4 witness: a vocabulary with concepts 1 and 2 only — assembling
`[1, 2]` succeeds with exactly those ids; assembling `[1, 3]` fails with
the message for id 3. -/
theorem c4_create_concept_set_fail_fast_witness :
    (∃ cs, create_concept_set
        (fun i => if i = 1 then some cAlpha else if i = 2 then some cGamma else none)
        ("diabetes") [1, 2] true false = .success cs ∧
      cs.expression.items.map (fun it => it.concept.concept_id) = [1, 2]) ∧
    (∃ cid, cid ∈ [(1 : Int), 3] ∧
      (fun i => if i = 1 then some cAlpha else if i = 2 then some cGamma else none) cid
        = none ∧
      create_concept_set
        (fun i => if i = 1 then some cAlpha else if i = 2 then some cGamma else none)
        ("diabetes") [1, 3] true false =
        .failure cid ("Concept not found: " ++ toString cid)) := by
  constructor
  · refine (c4_create_concept_set_fail_fast
      (fun i => if i = 1 then some cAlpha else if i = 2 then some cGamma else none)
      ("diabetes") [1, 2] true false).1 ?_
    intro cid hm
    rcases List.mem_cons.mp hm with rfl | hm2
    · exact ⟨cAlpha, rfl, rfl⟩
    · rcases List.mem_cons.mp hm2 with rfl | hm3
      · exact ⟨cGamma, rfl, rfl⟩
      · cases hm3
  · exact (c4_create_concept_set_fail_fast
      (fun i => if i = 1 then some cAlpha else if i = 2 then some cGamma else none)
      ("diabetes") [1, 3] true false).2 ⟨3, by simp, rfl⟩

/-- A list is a Python-prefix of itself. -/
theorem isPrefixOf_self (l : List Char) : l.isPrefixOf l = true := by
  induction l with
  | nil => rfl
  | cons c r ih => simp [List.isPrefixOf, ih]

/-- A list is a Python-substring of itself. -/
theorem pySubstr_self (l : List Char) : pySubstr l l = true := by
  cases l with
  | nil => rfl
  | cons c r => simp [pySubstr, isPrefixOf_self]

/-- An exact case-insensitive name match is also a substring match. -/
theorem partial_of_exactNameMatch (q : List Char) (c : CohortMeta)
    (h : exactNameMatch q c = true) : partialNameMatch q c = true := by
  unfold exactNameMatch at h
  rw [decide_eq_true_eq] at h
  unfold partialNameMatch
  rw [← h]
  exact pySubstr_self _

/-- C8: a unique exact case-insensitive match is returned as the loaded
cohort; when no unique exact match exists and more than one cohort
substring-matches, the result is the ambiguous listing of (at least two)
matching candidates, never a single pick. -/
theorem c8_load_cohort_by_name (cohorts : List CohortMeta) (q : List Char) :
    (∀ c, cohorts.filter (exactNameMatch q) = [c] →
      loadCohortByName cohorts q = .found c) ∧
    ((cohorts.filter (exactNameMatch q)).length ≠ 1 →
      1 < (cohorts.filter (partialNameMatch q)).length →
      ∃ l, loadCohortByName cohorts q = .ambiguous l ∧ 2 ≤ l.length ∧
        ∀ c ∈ l, partialNameMatch q c = true) := by
  constructor
  · intro c h
    simp [loadCohortByName, h]
  · intro h1 h2
    cases hE : cohorts.filter (exactNameMatch q) with
    | nil =>
      cases hP : cohorts.filter (partialNameMatch q) with
      | nil => rw [hP] at h2; simp at h2
      | cons a t =>
        cases t with
        | nil => rw [hP] at h2; simp at h2
        | cons b t2 =>
          refine ⟨(a :: b :: t2).take 10, ?_, ?_, ?_⟩
          · simp [loadCohortByName, hE, hP]
          · simp [List.length_take]
          · intro c hc
            have hcmem : c ∈ cohorts.filter (partialNameMatch q) := by
              rw [hP]
              exact List.mem_of_mem_take hc
            exact (List.mem_filter.mp hcmem).2
    | cons a t =>
      cases t with
      | nil => rw [hE] at h1; simp at h1
      | cons b t2 =>
        refine ⟨(a :: b :: t2).take 10, ?_, ?_, ?_⟩
        · simp [loadCohortByName, hE]
        · simp [List.length_take]
        · intro c hc
          have hcmem : c ∈ cohorts.filter (exactNameMatch q) := by
            rw [hE]
            exact List.mem_of_mem_take hc
          exact partial_of_exactNameMatch q c (List.mem_filter.mp hcmem).2

/-- C8 witness: a unique exact match loads that cohort; a query matching
two cohorts only as a substring yields the ambiguous listing. -/
theorem c8_load_cohort_by_name_witness :
    loadCohortByName [⟨1, "Alpha".toList⟩, ⟨2, "Alphabet".toList⟩] ("alpha".toList) =
      .found ⟨1, "Alpha".toList⟩ ∧
    (∃ l, loadCohortByName
        [⟨1, "Diabetes mellitus".toList⟩, ⟨2, "Diabetes insipidus".toList⟩]
        ("diabetes".toList) = .ambiguous l ∧ 2 ≤ l.length ∧
      ∀ c ∈ l, partialNameMatch ("diabetes".toList) c = true) := by
  constructor
  · exact (c8_load_cohort_by_name [⟨1, "Alpha".toList⟩, ⟨2, "Alphabet".toList⟩]
      ("alpha".toList)).1 ⟨1, "Alpha".toList⟩ (by decide)
  · exact (c8_load_cohort_by_name
      [⟨1, "Diabetes mellitus".toList⟩, ⟨2, "Diabetes insipidus".toList⟩]
      ("diabetes".toList)).2 (by decide) (by decide)

/-- The concept-set name set is empty exactly for an empty section. -/
theorem conceptSetNames_eq_empty_iff (l : List NamedEntry) :
    conceptSetNames l = ∅ ↔ l = [] := by
  simp [conceptSetNames]

/-- C1 (amended): comparing a cohort to itself always yields empty
difference sets, and a structural similarity of 100 percent exactly when
the cohort has at least one concept set — with zero concept sets the
common-name check fails and the score is 75 percent. -/
theorem c1_compare_cohorts_self (c : CmpCohort) :
    (compare_cohorts c c).only_cs_a = ∅ ∧
    (compare_cohorts c c).only_cs_b = ∅ ∧
    (compare_cohorts c c).only_rules_a = ∅ ∧
    (compare_cohorts c c).only_rules_b = ∅ ∧
    (compare_cohorts c c).similarity_pct =
      (if c.ConceptSets.isEmpty then 75 else 100) := by
  refine ⟨?_, ?_, ?_, ?_, ?_⟩
  · simp [compare_cohorts]
  · simp [compare_cohorts]
  · simp [compare_cohorts]
  · simp [compare_cohorts]
  · by_cases hcs : c.ConceptSets = []
    · have hempty : conceptSetNames ([] : List NamedEntry) = ∅ :=
        (conceptSetNames_eq_empty_iff _).mpr rfl
      simp [compare_cohorts, hcs, hempty]
    · have hpos : 0 < (conceptSetNames c.ConceptSets).card := by
        rw [Finset.card_pos, Finset.nonempty_iff_ne_empty]
        intro hcon
        exact hcs ((conceptSetNames_eq_empty_iff _).mp hcon)
      simp [compare_cohorts, hcs, Finset.inter_self, hpos]

/-- C1 counterexample: the claim that every self-comparison reports 100
percent structural similarity is false — a cohort with zero concept sets
compared to itself scores 75 percent. -/
theorem c1_compare_cohorts_self_counterexample :
    (compare_cohorts
        { ConceptSets := [], InclusionRules := [], PrimaryCriteria := none }
        { ConceptSets := [], InclusionRules := [], PrimaryCriteria := none }).similarity_pct
      = 75 ∧ (75 : Nat) ≠ 100 := by
  exact ⟨rfl, by decide⟩

/-- Overwriting an existing key leaves the key sequence unchanged. -/
theorem overwriteExisting_keys {V : Type} (d : List (String × V)) (k : String) (v : V) :
    (overwriteExisting d k v).map Prod.fst = d.map Prod.fst := by
  unfold overwriteExisting
  split
  · rw [List.map_map]
    apply List.map_congr_left
    intro p hp
    dsimp only [Function.comp]
    split
    · rename_i hpk
      exact hpk.symm
    · rfl
  · rfl

/-- Replacing the value at one key does not change lookups at other keys. -/
theorem keyLookup_replace_ne {K V : Type} [DecidableEq K] (d : List (K × V))
    (k k' : K) (v : V) (h : k' ≠ k) :
    keyLookup k' (d.map (fun p => if p.1 = k then (k, v) else p)) = keyLookup k' d := by
  induction d with
  | nil => rfl
  | cons p rest ih =>
    obtain ⟨a, b⟩ := p
    dsimp only [List.map]
    by_cases hak : a = k
    · subst hak
      rw [if_pos rfl]
      dsimp only [keyLookup]
      rw [if_neg (Ne.symm h), if_neg (Ne.symm h)]
      exact ih
    · rw [if_neg hak]
      dsimp only [keyLookup]
      by_cases hak' : a = k'
      · rw [if_pos hak', if_pos hak']
      · rw [if_neg hak', if_neg hak']
        exact ih

/-- Replacing the value at a present key makes lookup return the new value. -/
theorem keyLookup_replace_self {K V : Type} [DecidableEq K] (d : List (K × V))
    (k : K) (v : V) (h : d.any (fun p => p.1 = k) = true) :
    keyLookup k (d.map (fun p => if p.1 = k then (k, v) else p)) = some v := by
  induction d with
  | nil => cases h
  | cons p rest ih =>
    obtain ⟨a, b⟩ := p
    dsimp only [List.map]
    by_cases hak : a = k
    · subst hak
      rw [if_pos rfl]
      dsimp only [keyLookup]
      rw [if_pos rfl]
    · have h' : rest.any (fun p => p.1 = k) = true := by
        simpa [hak] using h
      rw [if_neg hak]
      dsimp only [keyLookup]
      rw [if_neg hak]
      exact ih h'

/-- The presence test of `overwriteExisting` is key membership. -/
theorem any_key_iff_mem {K V : Type} [DecidableEq K] (d : List (K × V)) (k : K) :
    d.any (fun p => p.1 = k) = true ↔ k ∈ d.map Prod.fst := by
  induction d with
  | nil => simp
  | cons p rest ih =>
    simp only [List.any_cons, Bool.or_eq_true, decide_eq_true_eq, List.map_cons,
      List.mem_cons, ih]
    exact or_congr eq_comm Iff.rfl

/-- Lookup misses exactly the absent keys. -/
theorem keyLookup_eq_none_of_not_mem {K V : Type} [DecidableEq K]
    (d : List (K × V)) (k : K)
    (h : k ∉ d.map Prod.fst) : keyLookup k d = none := by
  induction d with
  | nil => rfl
  | cons p rest ih =>
    have hpk : p.1 ≠ k := by
      intro e
      exact h (by simp [e])
    have hrest : k ∉ rest.map Prod.fst := fun hm => h (by simp [hm])
    simp [keyLookup, hpk, ih hrest]

/-- Overwriting at another key preserves lookups. -/
theorem keyLookup_overwrite_ne {V : Type} (d : List (String × V)) (k k' : String)
    (v : V) (h : k' ≠ k) :
    keyLookup k' (overwriteExisting d k v) = keyLookup k' d := by
  unfold overwriteExisting
  split
  · exact keyLookup_replace_ne d k k' v h
  · rfl

/-- The modification loop never adds or reorders top-level keys. -/
theorem applyModifications_keys {V : Type} (src mods : List (String × V)) :
    (applyModifications src mods).map Prod.fst = src.map Prod.fst := by
  induction mods generalizing src with
  | nil => rfl
  | cons m rest ih =>
    show (applyModifications (overwriteExisting src m.1 m.2) rest).map Prod.fst = _
    rw [ih, overwriteExisting_keys]

/-- Keys not named in the modification map keep their source value. -/
theorem applyModifications_lookup_not_mem {V : Type} (src mods : List (String × V))
    (k : String) (h : k ∉ mods.map Prod.fst) :
    keyLookup k (applyModifications src mods) = keyLookup k src := by
  induction mods generalizing src with
  | nil => rfl
  | cons m rest ih =>
    have hk : k ≠ m.1 := by
      intro e
      exact h (by simp [e])
    have hrest : k ∉ rest.map Prod.fst := fun hm => h (by simp [hm])
    show keyLookup k (applyModifications (overwriteExisting src m.1 m.2) rest) = _
    rw [ih _ hrest, keyLookup_overwrite_ne _ _ _ _ hk]

/-- A key present in both the source and a duplicate-free modification map
ends at the map's value. -/
theorem applyModifications_lookup_mem {V : Type} (src mods : List (String × V))
    (k : String) (hnd : (mods.map Prod.fst).Nodup)
    (hsrc : k ∈ src.map Prod.fst) (hmod : k ∈ mods.map Prod.fst) :
    keyLookup k (applyModifications src mods) = keyLookup k mods := by
  induction mods generalizing src with
  | nil => cases hmod
  | cons m rest ih =>
    show keyLookup k (applyModifications (overwriteExisting src m.1 m.2) rest) = _
    by_cases hkm : k = m.1
    · have hnr : k ∉ rest.map Prod.fst := by
        rw [hkm]
        exact (List.nodup_cons.mp (by simpa using hnd)).1
      rw [applyModifications_lookup_not_mem _ _ _ hnr]
      have hany : src.any (fun p => p.1 = m.1) = true :=
        (any_key_iff_mem src m.1).mpr (hkm ▸ hsrc)
      unfold overwriteExisting
      rw [if_pos hany, hkm, keyLookup_replace_self _ _ _ hany]
      simp [keyLookup, hkm.symm]
    · have hrm : k ∈ rest.map Prod.fst := by
        rcases (by simpa using hmod) with h1 | h1
        · exact absurd h1 hkm
        · simpa using h1
      have hnr : (rest.map Prod.fst).Nodup := (List.nodup_cons.mp (by simpa using hnd)).2
      have hsrc' : k ∈ (overwriteExisting src m.1 m.2).map Prod.fst := by
        rw [overwriteExisting_keys]
        exact hsrc
      rw [ih _ hnr hsrc' hrm]
      simp [keyLookup, Ne.symm hkm]

/-- C10: `clone_cohort` only overwrites top-level keys already present in
the source definition — the key sequence is unchanged (so modification
keys absent from the source are silently ignored and never added), keys
not named in the modification map keep their source value, keys absent
from the source stay absent, and a named present key takes the map's
value. -/
theorem c10_clone_modifications_frame {V : Type} (src mods : List (String × V))
    (nn nd : String) :
    ((clone_cohort src nn (some mods) nd).expression.map Prod.fst = src.map Prod.fst) ∧
    (∀ k, k ∉ mods.map Prod.fst →
      keyLookup k (clone_cohort src nn (some mods) nd).expression = keyLookup k src) ∧
    (∀ k, k ∉ src.map Prod.fst →
      keyLookup k (clone_cohort src nn (some mods) nd).expression = none) ∧
    ((mods.map Prod.fst).Nodup → ∀ k, k ∈ src.map Prod.fst → k ∈ mods.map Prod.fst →
      keyLookup k (clone_cohort src nn (some mods) nd).expression = keyLookup k mods) := by
  have hexpr : (clone_cohort src nn (some mods) nd).expression =
      applyModifications src mods := by
    cases mods with
    | nil => rfl
    | cons m rest => rfl
  rw [hexpr]
  refine ⟨applyModifications_keys src mods, ?_, ?_, ?_⟩
  · intro k hk
    exact applyModifications_lookup_not_mem src mods k hk
  · intro k hk
    apply keyLookup_eq_none_of_not_mem
    rw [applyModifications_keys]
    exact hk
  · intro hnd k hks hkm
    exact applyModifications_lookup_mem src mods k hnd hks hkm

/-- C10 witness: a concrete source and modification map — an untouched key
keeps its value, a map key absent from the source stays absent, and a
shared key takes the map's value. -/
theorem c10_clone_modifications_frame_witness :
    keyLookup ("name")
        (clone_cohort [("name", (1 : Nat)), ("x", 2)] ("n2")
          (some [("x", 5), ("zz", 9)]) ("d")).expression =
      keyLookup ("name") [("name", (1 : Nat)), ("x", 2)] ∧
    keyLookup ("zz")
        (clone_cohort [("name", (1 : Nat)), ("x", 2)] ("n2")
          (some [("x", 5), ("zz", 9)]) ("d")).expression = none ∧
    keyLookup ("x")
        (clone_cohort [("name", (1 : Nat)), ("x", 2)] ("n2")
          (some [("x", 5), ("zz", 9)]) ("d")).expression =
      keyLookup ("x") [("x", (5 : Nat)), ("zz", 9)] :=
  ⟨(c10_clone_modifications_frame [("name", (1 : Nat)), ("x", 2)]
      [("x", 5), ("zz", 9)] ("n2") ("d")).2.1 ("name") (by decide),
   (c10_clone_modifications_frame [("name", (1 : Nat)), ("x", 2)]
      [("x", 5), ("zz", 9)] ("n2") ("d")).2.2.1 ("zz") (by decide),
   (c10_clone_modifications_frame [("name", (1 : Nat)), ("x", 2)]
      [("x", 5), ("zz", 9)] ("n2") ("d")).2.2.2 (by decide) ("x") (by decide) (by decide)⟩

/-- Replacing the value at one key keeps the key sequence. -/
theorem map_fst_replace {K V : Type} [DecidableEq K] (d : List (K × V))
    (k : K) (v : V) :
    (d.map (fun p => if p.1 = k then (k, v) else p)).map Prod.fst = d.map Prod.fst := by
  rw [List.map_map]
  apply List.map_congr_left
  intro p hp
  dsimp only [Function.comp]
  split
  · rename_i h
    exact h.symm
  · rfl

/-- Lookup distributes over append, preferring the left list. -/
theorem keyLookup_append {K V : Type} [DecidableEq K] (d e : List (K × V)) (k : K) :
    keyLookup k (d ++ e) = optOr (keyLookup k d) (keyLookup k e) := by
  induction d with
  | nil => rfl
  | cons p rest ih =>
    obtain ⟨a, b⟩ := p
    dsimp only [List.cons_append, keyLookup]
    by_cases hak : a = k
    · rw [if_pos hak, if_pos hak]
      rfl
    · rw [if_neg hak, if_neg hak]
      exact ih

theorem optOr_none_right {α : Type} (a : Option α) : optOr a none = a := by
  cases a <;> rfl

/-- The key sequence after one Python dict assignment. -/
theorem pyDictAssign_keys (d : List (Int × ConceptRef)) (k : Int) (v : ConceptRef) :
    (pyDictAssign d k v).map Prod.fst =
      if k ∈ d.map Prod.fst then d.map Prod.fst else d.map Prod.fst ++ [k] := by
  unfold pyDictAssign
  split
  · rename_i h
    rw [if_pos ((any_key_iff_mem d k).mp h), map_fst_replace]
  · rename_i h
    rw [if_neg (fun hm => h ((any_key_iff_mem d k).mpr hm)), List.map_append]
    rfl

/-- Looking up the assigned key finds the assigned value. -/
theorem keyLookup_pyDictAssign_self (d : List (Int × ConceptRef)) (k : Int)
    (v : ConceptRef) : keyLookup k (pyDictAssign d k v) = some v := by
  unfold pyDictAssign
  split
  · rename_i h
    exact keyLookup_replace_self d k v h
  · rename_i h
    have hnone : keyLookup k d = none :=
      keyLookup_eq_none_of_not_mem d k (fun hm => h ((any_key_iff_mem d k).mpr hm))
    rw [keyLookup_append, hnone]
    dsimp only [keyLookup, optOr]
    rw [if_pos rfl]

/-- Assignment at another key preserves lookups. -/
theorem keyLookup_pyDictAssign_ne (d : List (Int × ConceptRef)) (k k' : Int)
    (v : ConceptRef) (h : k' ≠ k) :
    keyLookup k' (pyDictAssign d k v) = keyLookup k' d := by
  unfold pyDictAssign
  split
  · exact keyLookup_replace_ne d k k' v h
  · rw [keyLookup_append]
    have h1 : keyLookup k' [(k, v)] = none := by
      dsimp only [keyLookup]
      rw [if_neg (Ne.symm h)]
    rw [h1, optOr_none_right]

/-- Seen-set congruence for first-seen dedup: only membership matters. -/
theorem firstSeenDedup_congr (s s' l : List Int)
    (h : ∀ x, x ∈ s ↔ x ∈ s') : firstSeenDedup s l = firstSeenDedup s' l := by
  induction l generalizing s s' with
  | nil => rfl
  | cons y ys ih =>
    dsimp only [firstSeenDedup]
    by_cases hy : y ∈ s
    · rw [if_pos hy, if_pos ((h y).mp hy)]
      exact ih s s' h
    · rw [if_neg hy, if_neg (fun hc => hy ((h y).mpr hc))]
      congr 1
      apply ih
      intro x
      simp [h x]

/-- The key sequence of the dedup fold is the first-seen dedup of the ids. -/
theorem uniqueConcepts_from_keys (l : List ConceptRef) (d : List (Int × ConceptRef)) :
    (l.foldl (fun d c => pyDictAssign d c.concept_id c) d).map Prod.fst =
      d.map Prod.fst ++ firstSeenDedup (d.map Prod.fst) (l.map ConceptRef.concept_id) := by
  induction l generalizing d with
  | nil => simp [firstSeenDedup]
  | cons c rest ih =>
    dsimp only [List.foldl, List.map]
    rw [ih, pyDictAssign_keys]
    by_cases hc : c.concept_id ∈ d.map Prod.fst
    · rw [if_pos hc]
      dsimp only [firstSeenDedup]
      rw [if_pos hc]
    · rw [if_neg hc]
      dsimp only [firstSeenDedup]
      rw [if_neg hc, List.append_assoc]
      congr 1
      dsimp only [List.singleton_append]
      congr 1
      apply firstSeenDedup_congr
      intro x
      simp [or_comm]

/-- Lookup through the dedup fold: the last occurrence of the id wins. -/
theorem uniqueConcepts_from_lookup (l : List ConceptRef)
    (d : List (Int × ConceptRef)) (k : Int) :
    keyLookup k (l.foldl (fun d c => pyDictAssign d c.concept_id c) d) =
      optOr ((l.filter (fun c => c.concept_id = k)).getLast?) (keyLookup k d) := by
  induction l generalizing d with
  | nil => rfl
  | cons c rest ih =>
    dsimp only [List.foldl]
    rw [ih]
    by_cases hc : c.concept_id = k
    · rw [List.filter_cons_of_pos (by simpa using hc)]
      have hl : keyLookup k (pyDictAssign d c.concept_id c) = some c := by
        rw [hc]
        exact keyLookup_pyDictAssign_self d k c
      rw [hl]
      have hcons : (c :: rest.filter (fun c => c.concept_id = k)).getLast? =
          optOr (rest.filter (fun c => c.concept_id = k)).getLast? (some c) := by
        cases hf : rest.filter (fun c => c.concept_id = k) with
        | nil => rfl
        | cons x xs =>
          rw [List.getLast?_cons_cons]
          have hnn : (x :: xs).getLast? ≠ none := by
            simp [List.getLast?_eq_none_iff]
          cases hg : (x :: xs).getLast? with
          | none => exact absurd hg hnn
          | some y => rfl
      rw [hcons]
      cases (rest.filter (fun c => c.concept_id = k)).getLast? <;> rfl
    · rw [List.filter_cons_of_neg (by simpa using hc)]
      rw [keyLookup_pyDictAssign_ne d c.concept_id k c (fun e => hc e.symm)]

/-- Every entry of the dedup dict keys its concept by its own id. -/
theorem uniqueConcepts_from_snd_id (l : List ConceptRef)
    (d : List (Int × ConceptRef)) (hd : ∀ p ∈ d, p.2.concept_id = p.1) :
    ∀ p ∈ l.foldl (fun d c => pyDictAssign d c.concept_id c) d,
      p.2.concept_id = p.1 := by
  induction l generalizing d with
  | nil => exact hd
  | cons c rest ih =>
    apply ih
    intro p hp
    dsimp only at hp
    unfold pyDictAssign at hp
    split at hp
    · rw [List.mem_map] at hp
      obtain ⟨q, hq, hqe⟩ := hp
      by_cases hq1 : q.1 = c.concept_id
      · rw [if_pos hq1] at hqe
        rw [← hqe]
      · rw [if_neg hq1] at hqe
        exact hqe ▸ hd q hq
    · rw [List.mem_append] at hp
      rcases hp with hp | hp
      · exact hd p hp
      · have hp' : p = (c.concept_id, c) := by simpa using hp
        rw [hp']

/-- Lookup of a present entry under duplicate-free keys. -/
theorem keyLookup_of_mem_nodup {K V : Type} [DecidableEq K] (d : List (K × V))
    (p : K × V) (hnd : (d.map Prod.fst).Nodup) (hp : p ∈ d) :
    keyLookup p.1 d = some p.2 := by
  induction d with
  | nil => cases hp
  | cons q rest ih =>
    obtain ⟨a, b⟩ := q
    rcases List.mem_cons.mp hp with rfl | hp'
    · dsimp only [keyLookup]
      rw [if_pos rfl]
    · have ha : a ≠ p.1 := by
        intro e
        have hm : p.1 ∈ rest.map Prod.fst := List.mem_map.mpr ⟨p, hp', rfl⟩
        exact (List.nodup_cons.mp (by simpa using hnd)).1 (e ▸ hm)
      dsimp only [keyLookup]
      rw [if_neg ha]
      exact ih (List.nodup_cons.mp (by simpa using hnd)).2 hp'

/-- First-seen dedup never emits an already-seen id. -/
theorem firstSeenDedup_not_mem_seen (s l : List Int) :
    ∀ x ∈ firstSeenDedup s l, x ∉ s := by
  induction l generalizing s with
  | nil => intro x hx; cases hx
  | cons y ys ih =>
    dsimp only [firstSeenDedup]
    by_cases hy : y ∈ s
    · rw [if_pos hy]
      exact ih s
    · rw [if_neg hy]
      intro x hx
      rcases List.mem_cons.mp hx with rfl | hx'
      · exact hy
      · intro hxs
        exact ih (y :: s) x hx' (List.mem_cons_of_mem _ hxs)

/-- First-seen dedup emits each id at most once. -/
theorem firstSeenDedup_nodup (s l : List Int) : (firstSeenDedup s l).Nodup := by
  induction l generalizing s with
  | nil => exact List.nodup_nil
  | cons y ys ih =>
    dsimp only [firstSeenDedup]
    by_cases hy : y ∈ s
    · rw [if_pos hy]
      exact ih s
    · rw [if_neg hy]
      refine List.nodup_cons.mpr ⟨?_, ih (y :: s)⟩
      intro hmem
      exact firstSeenDedup_not_mem_seen (y :: s) ys y hmem (List.mem_cons_self y s)

/-- Membership in the first-seen dedup output. -/
theorem mem_firstSeenDedup (s l : List Int) (x : Int) :
    x ∈ firstSeenDedup s l ↔ (x ∈ l ∧ x ∉ s) := by
  induction l generalizing s with
  | nil => simp [firstSeenDedup]
  | cons y ys ih =>
    dsimp only [firstSeenDedup]
    by_cases hy : y ∈ s
    · rw [if_pos hy, ih]
      simp only [List.mem_cons]
      constructor
      · rintro ⟨h1, h2⟩
        exact ⟨Or.inr h1, h2⟩
      · rintro ⟨rfl | h1, h2⟩
        · exact absurd hy h2
        · exact ⟨h1, h2⟩
    · rw [if_neg hy]
      simp only [List.mem_cons, ih]
      constructor
      · rintro (rfl | ⟨h1, h2⟩)
        · exact ⟨Or.inl rfl, hy⟩
        · exact ⟨Or.inr h1, fun hs => h2 (Or.inr hs)⟩
      · rintro ⟨rfl | h1, h2⟩
        · exact Or.inl rfl
        · by_cases hxy : x = y
          · exact Or.inl hxy
          · exact Or.inr ⟨h1, fun hmem => hmem.elim hxy h2⟩

/-- C2 (amended): `create_concept_set_from_search` produces items whose
concept ids are the first-seen deduplication of the ids returned by the
per-term searches: every returned id appears exactly once, in first-seen
order — but the concept stored for a duplicated id comes from its LAST
occurrence (Python dict assignment overwrites the value), kept at the
first occurrence's position. -/
theorem c2_create_concept_set_from_search_dedup (name : String)
    (results : List (List ConceptRef)) (incd incm : Bool) (cap : Nat)
    (hcap : ∀ r ∈ results, r.length ≤ cap) :
    ((create_concept_set_from_search name results incd incm cap).expression.items.map
        (fun it => it.concept.concept_id) =
      firstSeenDedup [] (results.flatten.map ConceptRef.concept_id)) ∧
    ((create_concept_set_from_search name results incd incm cap).expression.items.map
        (fun it => it.concept.concept_id)).Nodup ∧
    (∀ k, k ∈ (create_concept_set_from_search name results incd incm cap).expression.items.map
        (fun it => it.concept.concept_id) ↔
      k ∈ results.flatten.map ConceptRef.concept_id) ∧
    (∀ it ∈ (create_concept_set_from_search name results incd incm cap).expression.items,
      some it.concept =
        (results.flatten.filter
          (fun c => c.concept_id = it.concept.concept_id)).getLast? ∧
      it.isExcluded = false ∧ it.includeDescendants = incd ∧
      it.includeMapped = incm) := by
  have hflat : results.map (fun l => l.take cap) = results := by
    conv_rhs => rw [← List.map_id results]
    apply List.map_congr_left
    intro r hr
    exact List.take_of_length_le (hcap r hr)
  have hitems : (create_concept_set_from_search name results incd incm cap).expression.items
      = ((uniqueConcepts results.flatten).map Prod.snd).map
          (mkConceptSetItem incd incm) := by
    show ((uniqueConcepts ((results.map (fun l => l.take cap)).flatten)).map
        Prod.snd).map (mkConceptSetItem incd incm) = _
    rw [hflat]
  have hsnd : ∀ p ∈ uniqueConcepts results.flatten, p.2.concept_id = p.1 :=
    uniqueConcepts_from_snd_id results.flatten [] (by intro q hq; cases hq)
  have hids : (create_concept_set_from_search name results incd incm
        cap).expression.items.map (fun it => it.concept.concept_id) =
      (uniqueConcepts results.flatten).map Prod.fst := by
    rw [hitems, List.map_map, List.map_map]
    apply List.map_congr_left
    intro p hp
    dsimp only [Function.comp, mkConceptSetItem]
    exact hsnd p hp
  have hkeys : (uniqueConcepts results.flatten).map Prod.fst =
      firstSeenDedup [] (results.flatten.map ConceptRef.concept_id) := by
    show (results.flatten.foldl
        (fun d c => pyDictAssign d c.concept_id c) []).map Prod.fst = _
    rw [uniqueConcepts_from_keys]
    rfl
  refine ⟨?_, ?_, ?_, ?_⟩
  · rw [hids, hkeys]
  · rw [hids, hkeys]
    exact firstSeenDedup_nodup [] _
  · intro k
    rw [hids, hkeys, mem_firstSeenDedup]
    simp
  · intro it hit
    rw [hitems] at hit
    rw [List.mem_map] at hit
    obtain ⟨q, hq, rfl⟩ := hit
    rw [List.mem_map] at hq
    obtain ⟨p, hp, rfl⟩ := hq
    refine ⟨?_, rfl, rfl, rfl⟩
    dsimp only [mkConceptSetItem]
    have hid := hsnd p hp
    have hnd : ((uniqueConcepts results.flatten).map Prod.fst).Nodup := by
      rw [hkeys]
      exact firstSeenDedup_nodup [] _
    have hlook : keyLookup p.1 (uniqueConcepts results.flatten) = some p.2 :=
      keyLookup_of_mem_nodup _ p hnd hp
    have hfold : keyLookup p.1 (uniqueConcepts results.flatten) =
        optOr ((results.flatten.filter (fun c => c.concept_id = p.1)).getLast?)
          (keyLookup p.1 ([] : List (Int × ConceptRef))) :=
      uniqueConcepts_from_lookup results.flatten [] p.1
    rw [hlook] at hfold
    dsimp only [keyLookup] at hfold
    rw [optOr_none_right] at hfold
    rw [hid]
    exact hfold

/-- C2 counterexample: the claim that the item kept for a duplicated id is
the one from its first occurrence is false — two searches both returning
id 1 (with different concept payloads) keep the second payload, not the
first. -/
theorem c2_first_occurrence_counterexample :
    (create_concept_set_from_search ("s") [[cAlpha], [cBeta]]
        true false 10).expression.items = [mkConceptSetItem true false cBeta] ∧
    mkConceptSetItem true false cBeta ≠ mkConceptSetItem true false cAlpha := by
  constructor
  · rfl
  · decide

/-- C2 witness: two searches with an overlapping id — the item ids are the
first-seen dedup of all returned ids. -/
theorem c2_create_concept_set_from_search_dedup_witness :
    (create_concept_set_from_search ("s") [[cAlpha], [cBeta, cGamma]]
        true false 10).expression.items.map (fun it => it.concept.concept_id) =
      firstSeenDedup [] ([[cAlpha], [cBeta, cGamma]].flatten.map
        ConceptRef.concept_id) :=
  (c2_create_concept_set_from_search_dedup ("s") [[cAlpha], [cBeta, cGamma]]
    true false 10 (by decide)).1

end OhdsiMcp
